import Mathlib

/-!
Verification of the Sequence Template Renderer of `go1.24_demo.go`
(repository TFMV/go124).

The program is a single-file demo. The only algorithmic fragment is the
`seq` helper registered in `DemoTextTemplate`:

  seq := func(start, end int) []int {
      s := make([]int, 0, end-start+1)
      for i := start; i <= end; i++ {
          s = append(s, i)
      }
      return s
  }

used by the template `Numbers: {{range $i := seq 1 5}}{{$i}} {{end}}`,
which renders the prefix "Numbers: " followed by each integer of the
sequence in decimal, each immediately followed by the separator " ".

Two embeddings are given below.

* A 64-bit machine model (`capM`, `seqM`, `renderM`, `seqLoopM`): every
  arithmetic operation of the source — the capacity computation
  `end-start+1` of the allocation and the loop increment `i++` — wraps
  modulo 2^64 (two's complement, `wrap64`). `make([]int, 0, cap)` panics
  at runtime when the wrapped capacity is negative (`Outcome.panicked`),
  and the loop, which genuinely never exits when `end` is the largest
  machine int, is run on fuel (`Outcome.fuelOut` when it runs out before
  the condition `i <= end` becomes false). This model is authoritative
  for the claims that quantify over ranges.

* An idealized-integer model (`seq`, `render`): the same structure with
  the capacity and the counter in unbounded integers. It agrees with the
  machine model whenever no intermediate value leaves the 64-bit range,
  in particular at every concrete input considered here; it is used for
  the claims about fixed small inputs and about purity.

`main` is modelled as the list of calls it performs (`mainCalls`), over an
enumeration `DemoFn` of the demo functions defined in the file.
-/

namespace Go124

/-- The body of the for-loop of `seq`, realized structurally on a fuel
counter. Each step tests the loop condition `i <= end` exactly as the
source does; the fuel only bounds the number of steps and is chosen at the
call site (`seqLoop`) as the exact iteration count, which is justified by
`seqGo_eq` below. -/
def seqGo : Nat → Int → Int → List Int
  | 0, _, _ => []
  | n + 1, i, e => if i ≤ e then i :: seqGo n (i + 1) e else []

/-- The loop `for i := start; i <= end; i++ { s = append(s, i) }` of `seq`,
with the counter in unbounded integers (`e` stands for the Go parameter
`end`, a reserved word in Lean). Idealization: the source increment wraps,
so the source loop never exits when `end` is the largest machine int; the
machine-faithful loop is `seqLoopM` below, and the two agree whenever
`end` is below the largest machine int. -/
def seqLoop (start e : Int) : List Int :=
  seqGo (e + 1 - start).toNat start e

/-- The `seq` func literal of `DemoTextTemplate` (go1.24_demo.go:261-267).
`make([]int, 0, end-start+1)` panics at runtime when the capacity
`end-start+1` is negative; `none` models that panic. Otherwise the loop
appends `start, start+1, ...` while `i <= end`. Idealization: the capacity
is computed here in unbounded integers, while the source computes it in
wrapping 64-bit arithmetic; the machine-faithful version is `seqM` below,
and the two agree whenever `end - start + 1` does not overflow — in
particular at every concrete input used in the claims below. -/
def seq (start e : Int) : Option (List Int) :=
  if e - start + 1 < 0 then none else some (seqLoop start e)

/-- Rendering of the range body: each produced integer is written in
decimal and immediately followed by the separator, as the template body
does with the separator " " for each `$i`. -/
def renderTokens (l : List Int) (sep : String) : String :=
  String.join (l.map (fun i => toString i ++ sep))

/-- The renderer contract of the spec,
`render(prefix, start, end, separator)`, as the template
`Numbers: {{range $i := seq start end}}{{$i}}<separator>{{end}}`
computes it: the prefix followed by the rendered range body. `none`
propagates the panic of `seq` on a negative capacity. -/
def render (pre : String) (start e : Int) (sep : String) : Option String :=
  (seq start e).map (fun l => pre ++ renderTokens l sep)

/-- The string `DemoTextTemplate` computes into its buffer before
printing: the fixed template rendered with bounds 1 and 5. -/
def demoTextTemplateOutput : Option String :=
  render "Numbers: " 1 5 " "

/-- The arithmetic sequence `start, start+1, ..., start+n-1`: the closed
form of the list the loop of `seq` builds. -/
def rangeList (start : Int) (n : Nat) : List Int :=
  (List.range n).map (fun k : Nat => start + (k : Int))

/-! ## 64-bit machine model of the loop -/

/-- Smallest value of the 64-bit Go `int`: -2^63. -/
def int64Min : Int := -9223372036854775808

/-- Largest value of the 64-bit Go `int`: 2^63 - 1. -/
def int64Max : Int := 9223372036854775807

/-- Two's-complement wrap-around of 64-bit signed arithmetic:
`wrap64 x = ((x + 2^63) mod 2^64) - 2^63`. -/
def wrap64 (x : Int) : Int :=
  (x + 9223372036854775808) % 18446744073709551616 - 9223372036854775808

/-- The loop of `seq` under 64-bit machine semantics: the increment `i++`
wraps around. The loop may genuinely never exit (when `end` is the largest
machine int), so it is run on fuel; `none` means the fuel ran out before
the condition `i <= end` became false. -/
def seqLoopM : Nat → Int → Int → Option (List Int)
  | 0, _, _ => none
  | fuel + 1, i, e =>
    if i ≤ e then
      match seqLoopM fuel (wrap64 (i + 1)) e with
      | none => none
      | some l => some (i :: l)
    else
      some []

/-- The capacity `end-start+1` of the allocation in `seq` as the source
computes it: 64-bit subtraction, then 64-bit addition of 1, each wrapping. -/
def capM (start e : Int) : Int :=
  wrap64 (wrap64 (e - start) + 1)

/-- Outcome of running a fallible, possibly diverging computation on fuel:
a runtime panic, fuel exhaustion (the source loop had not exited yet), or
a result. -/
inductive Outcome (A : Type) where
  | panicked : Outcome A
  | fuelOut : Outcome A
  | ok : A → Outcome A
  deriving DecidableEq

/-- The `seq` func literal under full 64-bit machine semantics:
`make([]int, 0, end-start+1)` panics when the wrapped capacity is
negative; otherwise the wrapping loop runs on the given fuel. -/
def seqM (fuel : Nat) (start e : Int) : Outcome (List Int) :=
  if capM start e < 0 then .panicked
  else
    match seqLoopM fuel start e with
    | none => .fuelOut
    | some l => .ok l

/-- The renderer under 64-bit machine semantics: the prefix followed by
the rendered range body, propagating a panic or fuel exhaustion of `seqM`. -/
def renderM (fuel : Nat) (pre : String) (start e : Int) (sep : String) : Outcome String :=
  match seqM fuel start e with
  | .panicked => .panicked
  | .fuelOut => .fuelOut
  | .ok l => .ok (pre ++ renderTokens l sep)

/-! ## Model of `main` (go1.24_demo.go:381-404) -/

/-- The demo functions defined in the file. -/
inductive DemoFn where
  | demoGenericTypeAlias
  | DemoFinalizers
  | DemoCryptoPackages
  | DemoDirectoryLimitedFS
  | DemoBytesAndStringsIterators
  | DemoEncodingAppend
  | DemoNetipEncoding
  | DemoRegexpEncoding
  | DemoRuntimeGOROOT
  | DemoTextTemplate
  | DemoMathBigEncoding
  | DemoMathRand
  | DemoSyncMap
  | DemoSlog
  | DemoTimeEncoding
  | DemoSynctest
  | DemoGoTypesIterators
  | DemoMaphashComparable
  deriving DecidableEq, Fintype

/-- A top-level action `main` can perform: print a line, invoke a demo
function, or terminate the process with an exit code (`os.Exit`; the
source never calls it, the constructor exists so that its absence can be
stated). -/
inductive Call where
  | println (s : String)
  | invoke (f : DemoFn)
  | osExit (code : Int)
  deriving DecidableEq

/-- The statements of `main`, in source order. -/
def mainCalls : List Call :=
  [.println "=== Go 1.24 Demo ===",
   .invoke .demoGenericTypeAlias,
   .println "CGO Improvements Demo: Not implemented",
   .invoke .DemoFinalizers,
   .invoke .DemoCryptoPackages,
   .invoke .DemoDirectoryLimitedFS,
   .invoke .DemoBytesAndStringsIterators,
   .invoke .DemoEncodingAppend,
   .invoke .DemoNetipEncoding,
   .invoke .DemoRegexpEncoding,
   .invoke .DemoRuntimeGOROOT,
   .invoke .DemoTextTemplate,
   .invoke .DemoMathBigEncoding,
   .invoke .DemoMathRand,
   .invoke .DemoSyncMap,
   .invoke .DemoSlog,
   .println "Text Template Range Demo: Not implemented",
   .invoke .DemoTimeEncoding,
   .invoke .DemoSynctest,
   .invoke .DemoGoTypesIterators,
   .invoke .DemoMaphashComparable,
   .println "=== Go 1.24 Demo End ==="]

/-- The demo functions a call list invokes, in order. -/
def invokedDemos (cs : List Call) : List DemoFn :=
  cs.filterMap fun c =>
    match c with
    | .invoke f => some f
    | _ => none

/-- Whether a call is a process-exit call. -/
def Call.isOsExit : Call → Bool
  | .osExit _ => true
  | _ => false

/-- Exit code of a run: the code of the first `os.Exit` call, and 0 when
the list is exhausted (the Go runtime exits with status 0 when `main`
returns). -/
def runExitCode : List Call → Int
  | [] => 0
  | .osExit n :: _ => n
  | _ :: rest => runExitCode rest

/-! ## Helper lemmas -/

/-- Peeling one element off the closed form of the produced sequence. -/
theorem rangeList_succ (start : Int) (n : Nat) :
    rangeList start (n + 1) = start :: rangeList (start + 1) n := by
  unfold rangeList
  rw [List.range_succ_eq_map, List.map_cons, List.map_map]
  congr 1
  · simp
  · refine List.map_congr_left ?_
    intro k _
    simp [Function.comp]
    ring

/-- Adequacy of the fuel: run with fuel equal to the remaining iteration
count `(e + 1 - i).toNat`, the loop body produces exactly the arithmetic
sequence starting at `i` of that length. -/
theorem seqGo_eq (n : Nat) : ∀ i e : Int, (e + 1 - i).toNat = n →
    seqGo n i e = rangeList i n := by
  induction n with
  | zero => intro i e _; rfl
  | succ n ih =>
    intro i e h
    have hie : i ≤ e := by omega
    rw [seqGo, if_pos hie, ih (i + 1) e (by omega), rangeList_succ]

/-- Closed form of the loop of `seq`. -/
theorem seqLoop_eq (start e : Int) :
    seqLoop start e = rangeList start (e + 1 - start).toNat :=
  seqGo_eq _ start e rfl

/-- When the capacity `e - start + 1` is nonnegative, the allocation
succeeds and `seq` returns the loop result. -/
theorem seq_eq_of_le (start e : Int) (h : start ≤ e + 1) :
    seq start e = some (seqLoop start e) := by
  unfold seq
  rw [if_neg (by omega)]

theorem int64Min_eq : int64Min = -9223372036854775808 := rfl

theorem int64Max_eq : int64Max = 9223372036854775807 := rfl

/-- Wrapped values always lie in the 64-bit machine range. -/
theorem wrap64_bounds (x : Int) : int64Min ≤ wrap64 x ∧ wrap64 x ≤ int64Max := by
  have h1 := Int.emod_nonneg (x + 9223372036854775808)
    (by norm_num : (18446744073709551616 : Int) ≠ 0)
  have h2 := Int.emod_lt_of_pos (x + 9223372036854775808)
    (by norm_num : (0 : Int) < 18446744073709551616)
  unfold wrap64
  rw [int64Min_eq, int64Max_eq]
  omega

/-- Wrapping is the identity on values already in the machine range. -/
theorem wrap64_eq_self (x : Int) (h1 : int64Min ≤ x) (h2 : x ≤ int64Max) :
    wrap64 x = x := by
  rw [int64Min_eq] at h1
  rw [int64Max_eq] at h2
  unfold wrap64
  have h3 : (x + 9223372036854775808) % 18446744073709551616 = x + 9223372036854775808 :=
    Int.emod_eq_of_lt (by omega) (by omega)
  omega

/-- With `end` strictly below the largest machine int, the machine loop
never wraps: run on fuel `(e + 1 - i).toNat + 1` it exits and produces the
same arithmetic sequence as the idealized loop. -/
theorem seqLoopM_run (n : Nat) : ∀ i e : Int, int64Min ≤ i → e < int64Max →
    (e + 1 - i).toNat = n →
    seqLoopM (n + 1) i e = some (rangeList i n) := by
  induction n with
  | zero =>
    intro i e _ _ h
    rw [seqLoopM, if_neg (by omega)]
    rfl
  | succ n ih =>
    intro i e hi he h
    have hie : i ≤ e := by omega
    have hmin : int64Min ≤ i + 1 := by
      rw [int64Min_eq] at *
      omega
    have hmax : i + 1 ≤ int64Max := by
      rw [int64Max_eq] at *
      omega
    rw [seqLoopM, if_pos hie, wrap64_eq_self (i + 1) hmin hmax,
      ih (i + 1) e hmin he (by omega), rangeList_succ]

/-- With `end` equal to the largest machine int, the loop condition
`i <= end` holds for every machine value of `i`, so no amount of fuel
makes the machine loop exit. -/
theorem seqLoopM_int64Max (fuel : Nat) : ∀ i : Int, int64Min ≤ i → i ≤ int64Max →
    seqLoopM fuel i int64Max = none := by
  induction fuel with
  | zero => intro i _ _; rfl
  | succ fuel ih =>
    intro i h1 h2
    have hb := wrap64_bounds (i + 1)
    rw [seqLoopM, if_pos h2, ih (wrap64 (i + 1)) hb.1 hb.2]

/-- The produced sequence has exactly the announced length. -/
theorem rangeList_length (start : Int) (n : Nat) : (rangeList start n).length = n := by
  unfold rangeList
  rw [List.length_map, List.length_range]

/-- The produced sequence is strictly ascending. -/
theorem rangeList_pairwise (start : Int) (n : Nat) :
    List.Pairwise (· < ·) (rangeList start n) := by
  unfold rangeList
  rw [List.pairwise_map]
  refine (List.pairwise_lt_range n).imp ?_
  intro a b hab
  omega

/-! ## Claims -/

/-- C1, counterexample: at a = 5 > 1 = b the claim fails. `seq 5 1` does
not return an empty slice: `make([]int, 0, 1-5+1)` has (wrapped) capacity
-3, which is negative, so it panics and `render "Numbers: " 5 1 " "` does
not produce the bare prefix. -/
theorem C1_counterexample :
    (5 : Int) > 1 ∧ capM 5 1 < 0 ∧
    seqM 1 5 1 = .panicked ∧ renderM 1 "Numbers: " 5 1 " " = .panicked :=
  ⟨by decide, by decide, rfl, rfl⟩

/-- C1, amended: a reversed range (b < a) runs zero loop iterations, so
`seq` returns the empty slice and `render` returns exactly the prefix,
precisely when the 64-bit-wrapped capacity `wrap64 (wrap64 (b - a) + 1)`
is nonnegative — which holds for a = b + 1 and also for reversed pairs
whose capacity computation overflows back into the nonnegative range,
such as (2^63 - 1, -2^63); when the wrapped capacity is negative, as at
(5, 1), the allocation panics instead. -/
theorem C1_reversed_range (a b : Int) (h1 : b < a) (hcap : 0 ≤ capM a b) (fuel : Nat) :
    seqM (fuel + 1) a b = .ok [] ∧
    renderM (fuel + 1) "Numbers: " a b " " = .ok "Numbers: " := by
  have hseqM : seqM (fuel + 1) a b = .ok [] := by
    unfold seqM
    rw [if_neg (by omega), seqLoopM, if_neg (by omega)]
  refine ⟨hseqM, ?_⟩
  unfold renderM
  rw [hseqM]
  rfl

/-- C1, witness for the amended theorem at a = 2, b = 1. -/
theorem C1_witness :
    (1 : Int) < 2 ∧ 0 ≤ capM 2 1 ∧
    seqM 1 2 1 = .ok [] ∧ renderM 1 "Numbers: " 2 1 " " = .ok "Numbers: " :=
  ⟨by decide, by decide, (C1_reversed_range 2 1 (by decide) (by decide) 0).1,
   (C1_reversed_range 2 1 (by decide) (by decide) 0).2⟩

/-- C2, counterexample: the claim is not true of every pair a ≤ b. At
(a, b) = (0, 2^63 - 1) the source computes the capacity b - a + 1 by
64-bit wrap as -2^63, which is negative, so the allocation panics and
`seq` produces no list at all (and were the capacity benign, the wrapped
increment would keep the loop from ever exiting at b = 2^63 - 1, as
`seqLoopM_int64Max` shows). -/
theorem C2_counterexample :
    (0 : Int) ≤ int64Max ∧ capM 0 int64Max < 0 ∧
    seqM 1 0 int64Max = .panicked ∧
    renderM 1 "Numbers: " 0 int64Max " " = .panicked :=
  ⟨by decide, by decide, rfl, rfl⟩

/-- C2, amended: for a ≤ b with b - a + 1 ≤ 2^63 - 1 (the capacity does
not overflow) and b < 2^63 - 1 (the loop counter never wraps), `seq a b`
succeeds and returns exactly the list a, a+1, ..., b, of length
b - a + 1, strictly ascending; `render` returns the literal prefix
followed by each number in decimal, each immediately followed by the
single-space separator. -/
theorem C2_ascending_range (a b : Int) (ha : int64Min ≤ a) (h : a ≤ b)
    (hb : b < int64Max) (hcap : b - a + 1 ≤ int64Max) :
    ∃ l : List Int,
      seqM ((b + 1 - a).toNat + 1) a b = .ok l ∧
      l = rangeList a (b - a + 1).toNat ∧
      (l.length : Int) = b - a + 1 ∧
      List.Pairwise (· < ·) l ∧
      renderM ((b + 1 - a).toNat + 1) "Numbers: " a b " " =
        .ok ("Numbers: " ++ String.join (l.map (fun i => toString i ++ " "))) := by
  have hw1 : wrap64 (b - a) = b - a := by
    refine wrap64_eq_self _ ?_ ?_
    · rw [int64Min_eq]
      omega
    · rw [int64Max_eq] at hcap ⊢
      omega
  have hcap2 : capM a b = b - a + 1 := by
    unfold capM
    rw [hw1]
    refine wrap64_eq_self _ ?_ ?_
    · rw [int64Min_eq]
      omega
    · exact hcap
  have hrun := seqLoopM_run ((b + 1 - a).toNat) a b ha hb rfl
  have hseqM : seqM ((b + 1 - a).toNat + 1) a b =
      .ok (rangeList a ((b + 1 - a).toNat)) := by
    unfold seqM
    rw [if_neg (by omega), hrun]
  have hn : (b + 1 - a).toNat = (b - a + 1).toNat := by omega
  refine ⟨rangeList a ((b + 1 - a).toNat), hseqM, ?_, ?_, ?_, ?_⟩
  · rw [hn]
  · rw [rangeList_length]
    omega
  · exact rangeList_pairwise a _
  · unfold renderM
    rw [hseqM]
    rfl

/-- C2, witness at a = 1, b = 3. -/
theorem C2_witness :
    int64Min ≤ (1 : Int) ∧ (1 : Int) ≤ 3 ∧ (3 : Int) < int64Max ∧
    (3 : Int) - 1 + 1 ≤ int64Max ∧
    ∃ l : List Int,
      seqM (((3 : Int) + 1 - 1).toNat + 1) 1 3 = .ok l ∧
      l = rangeList 1 ((3 : Int) - 1 + 1).toNat ∧
      (l.length : Int) = 3 - 1 + 1 ∧
      List.Pairwise (· < ·) l ∧
      renderM (((3 : Int) + 1 - 1).toNat + 1) "Numbers: " 1 3 " " =
        .ok ("Numbers: " ++ String.join (l.map (fun i => toString i ++ " "))) :=
  ⟨by decide, by decide, by decide, by decide,
   C2_ascending_range 1 3 (by decide) (by decide) (by decide) (by decide)⟩

/-- C3, counterexample: the renderer does have a failure condition. At
start = 7, end = 1 the capacity 1-7+1 = -5 is negative, so the slice
allocation in `seq` panics and no result is produced. -/
theorem C3_counterexample :
    capM 7 1 < 0 ∧ seqM 1 7 1 = .panicked ∧
    renderM 1 "Numbers: " 7 1 " " = .panicked :=
  ⟨by decide, rfl, rfl⟩

/-- C3, amended: evaluation of `seq` and of `render` completes without
error or panic — with a (possibly empty) result — on every pair whose
64-bit-wrapped capacity `wrap64 (wrap64 (end - start) + 1)` is
nonnegative and whose `end` is below the largest machine int (so the loop
exits); when the wrapped capacity is negative the allocation panics, and
at end = 2^63 - 1 the loop never finishes (claim C10). -/
theorem C3_no_failure_in_bound (pre sep : String) (start e : Int)
    (hs : int64Min ≤ start) (he : e < int64Max) (hcap : 0 ≤ capM start e) :
    seqM ((e + 1 - start).toNat + 1) start e =
      .ok (rangeList start (e + 1 - start).toNat) ∧
    renderM ((e + 1 - start).toNat + 1) pre start e sep =
      .ok (pre ++ renderTokens (rangeList start (e + 1 - start).toNat) sep) := by
  have hrun := seqLoopM_run ((e + 1 - start).toNat) start e hs he rfl
  have hseqM : seqM ((e + 1 - start).toNat + 1) start e =
      .ok (rangeList start ((e + 1 - start).toNat)) := by
    unfold seqM
    rw [if_neg (by omega), hrun]
  refine ⟨hseqM, ?_⟩
  unfold renderM
  rw [hseqM]

/-- C3, witness for the amended theorem at start = end = 5. -/
theorem C3_witness :
    int64Min ≤ (5 : Int) ∧ (5 : Int) < int64Max ∧ 0 ≤ capM 5 5 ∧
    (seqM (((5 : Int) + 1 - 5).toNat + 1) 5 5 =
      .ok (rangeList 5 ((5 : Int) + 1 - 5).toNat) ∧
     renderM (((5 : Int) + 1 - 5).toNat + 1) "Numbers: " 5 5 " " =
      .ok ("Numbers: " ++ renderTokens (rangeList 5 ((5 : Int) + 1 - 5).toNat) " ")) :=
  ⟨by decide, by decide, by decide,
   C3_no_failure_in_bound "Numbers: " " " 5 5 (by decide) (by decide) (by decide)⟩

/-- C4: rendering the fixed template with bounds 1 and 5 produces exactly
"Numbers: 1 2 3 4 5 " (with a trailing space); this is the string
`DemoTextTemplate` computes before printing. -/
theorem C4_template_output :
    demoTextTemplateOutput = some "Numbers: 1 2 3 4 5 " ∧
    render "Numbers: " 1 5 " " = some "Numbers: 1 2 3 4 5 " :=
  ⟨rfl, rfl⟩

/-- C5: mixed-sign bounds follow the general contract:
`seq (-2) 2 = [-2, -1, 0, 1, 2]` and each element is rendered in decimal
with its sign, followed by one space, after the prefix. -/
theorem C5_negative_bounds :
    render "Numbers: " (-2) 2 " " = some "Numbers: -2 -1 0 1 2 " ∧
    seq (-2) 2 = some [-2, -1, 0, 1, 2] :=
  ⟨rfl, rfl⟩

/-- C6: the renderer is deterministic and pure. Two evaluations on
identical inputs (prefix, start, end, separator) yield identical outputs,
both of `render` and of `seq`; the result depends on nothing besides the
four arguments. -/
theorem C6_render_pure (p₁ p₂ sep₁ sep₂ : String) (s₁ s₂ e₁ e₂ : Int)
    (hp : p₁ = p₂) (hs : s₁ = s₂) (he : e₁ = e₂) (hsep : sep₁ = sep₂) :
    render p₁ s₁ e₁ sep₁ = render p₂ s₂ e₂ sep₂ ∧ seq s₁ e₁ = seq s₂ e₂ := by
  subst hp hs he hsep
  exact ⟨rfl, rfl⟩

/-- C6, witness at the concrete demo inputs. -/
theorem C6_witness :
    render "Numbers: " 1 5 " " = render "Numbers: " 1 5 " " ∧ seq 1 5 = seq 1 5 :=
  C6_render_pure "Numbers: " "Numbers: " " " " " 1 1 5 5 rfl rfl rfl rfl

/-- C7: `main` invokes every demo function defined in the file exactly
once, in the fixed source order. -/
theorem C7_main_invokes_each_demo_once :
    invokedDemos mainCalls =
      [.demoGenericTypeAlias, .DemoFinalizers, .DemoCryptoPackages,
       .DemoDirectoryLimitedFS, .DemoBytesAndStringsIterators, .DemoEncodingAppend,
       .DemoNetipEncoding, .DemoRegexpEncoding, .DemoRuntimeGOROOT,
       .DemoTextTemplate, .DemoMathBigEncoding, .DemoMathRand, .DemoSyncMap,
       .DemoSlog, .DemoTimeEncoding, .DemoSynctest, .DemoGoTypesIterators,
       .DemoMaphashComparable] ∧
    ∀ f : DemoFn, (invokedDemos mainCalls).count f = 1 :=
  ⟨rfl, by decide⟩

/-- C8: the process exit code is always 0: no statement of `main` is an
`os.Exit` call, so the run ends with code 0; and the one algorithmic demo
computation, the template rendered at bounds 1 and 5, completes. -/
theorem C8_exit_code_zero :
    runExitCode mainCalls = 0 ∧
    (mainCalls.all fun c => !(Call.isOsExit c)) = true ∧
    (render "Numbers: " 1 5 " ").isSome = true :=
  ⟨rfl, by decide, rfl⟩

/-- C9, counterexample: "nonnegative exactly when start ≤ end + 1" fails
under the source's wrapping arithmetic. At (start, end) = (-2^63, 0) we
have start ≤ end + 1, yet the source computes end - start by 64-bit wrap
as -2^63, hence the capacity end - start + 1 as -2^63 + 1, which is
negative: `seq` panics on the allocation instead of executing the loop. -/
theorem C9_counterexample :
    int64Min ≤ (0 : Int) + 1 ∧ capM int64Min 0 < 0 ∧
    seqM 1 int64Min 0 = .panicked :=
  ⟨by decide, by decide, rfl⟩

/-- C9, amended: with the capacity computed as the source does (64-bit
wrapping), when end - start + 1 does not overflow the machine range the
wrapped capacity is nonnegative exactly when start ≤ end + 1; and for
every pair whose wrapped capacity is nonnegative (end below the largest
machine int, so the loop exits — including the boundary start = end + 1),
`seq` avoids the negative-capacity allocation failure and returns a slice
of length max(0, end - start + 1). -/
theorem C9_capacity_guard (start e : Int)
    (hs : int64Min ≤ start) (he : e < int64Max) :
    (int64Min ≤ e - start + 1 → e - start + 1 ≤ int64Max →
      (0 ≤ capM start e ↔ start ≤ e + 1)) ∧
    (0 ≤ capM start e →
      seqM ((e + 1 - start).toNat + 1) start e =
        .ok (rangeList start (e + 1 - start).toNat) ∧
      ((rangeList start (e + 1 - start).toNat).length : Int) = max 0 (e - start + 1)) := by
  constructor
  · intro h1 h2
    rw [int64Min_eq] at h1
    rw [int64Max_eq] at h2
    unfold capM wrap64
    omega
  · intro hcap
    have hrun := seqLoopM_run ((e + 1 - start).toNat) start e hs he rfl
    constructor
    · unfold seqM
      rw [if_neg (by omega), hrun]
    · rw [rangeList_length]
      omega

/-- C9, witness at the boundary start = 6 = end + 1. -/
theorem C9_witness :
    int64Min ≤ (6 : Int) ∧ (5 : Int) < int64Max ∧ 0 ≤ capM 6 5 ∧
    (0 ≤ capM 6 5 ↔ (6 : Int) ≤ 5 + 1) ∧
    (seqM (((5 : Int) + 1 - 6).toNat + 1) 6 5 =
      .ok (rangeList 6 ((5 : Int) + 1 - 6).toNat) ∧
     ((rangeList 6 ((5 : Int) + 1 - 6).toNat).length : Int) = max 0 ((5 : Int) - 6 + 1)) :=
  ⟨by decide, by decide, by decide,
   (C9_capacity_guard 6 5 (by decide) (by decide)).1 (by decide) (by decide),
   (C9_capacity_guard 6 5 (by decide) (by decide)).2 (by decide)⟩

/-- C10: under 64-bit machine semantics, for machine ints start, end with
end strictly below the largest machine int, the loop of `seq` exits after
exactly max(0, end - start + 1) iterations (the length of the produced
list), while for end equal to the largest machine int the condition
`i <= end` never becomes false — the wrapped increment keeps `i` in the
machine range — and the loop runs forever, whatever the fuel. -/
theorem C10_loop_termination (start e : Int)
    (hs1 : int64Min ≤ start) (hs2 : start ≤ int64Max)
    (he1 : int64Min ≤ e) (he2 : e ≤ int64Max) :
    (e < int64Max →
      seqLoopM ((e + 1 - start).toNat + 1) start e =
        some (rangeList start (e + 1 - start).toNat) ∧
      ((rangeList start (e + 1 - start).toNat).length : Int) = max 0 (e - start + 1)) ∧
    (e = int64Max → ∀ fuel, seqLoopM fuel start e = none) := by
  constructor
  · intro hlt
    refine ⟨seqLoopM_run _ start e hs1 hlt rfl, ?_⟩
    rw [rangeList_length]
    omega
  · intro heq fuel
    subst heq
    exact seqLoopM_int64Max fuel start hs1 hs2

/-- C10, witness at start = 1, end = 5: six units of fuel suffice and the
loop performs exactly five iterations. -/
theorem C10_witness :
    seqLoopM (((5 : Int) + 1 - 1).toNat + 1) 1 5 =
      some (rangeList 1 ((5 : Int) + 1 - 1).toNat) ∧
    ((rangeList 1 ((5 : Int) + 1 - 1).toNat).length : Int) = max 0 ((5 : Int) - 1 + 1) :=
  (C10_loop_termination 1 5 (by decide) (by decide) (by decide) (by decide)).1 (by decide)

end Go124
